import Mathlib

/-!
Verification of the analysis-to-action pipeline of the IO repository.

The Python source is shallowly embedded: every regular expression used by the
two action parsers is compiled by hand into a deterministic scanner.  This is
faithful because in each pattern the adjacent character classes are pairwise
disjoint (letters of the keyword, `[^\[]`/`[^0-9]`/`[^"]` fillers, digits,
whitespace, and the literal punctuation), so Python's backtracking never finds
an alternative once the greedy sub-match fails: each quantifier's match is the
maximal run of its class, and a failure after it cannot be repaired by giving
characters back.  `re.finditer`/`re.findall` semantics (leftmost,
non-overlapping, resume after each match) are replayed by a fuel-indexed scan
that attempts a match at every position and skips one character on failure.
-/

namespace ScreenAuto

/-- Python `\s` for the ASCII inputs handled here: space, tab, LF, CR, VT, FF. -/
def isSpacePy (c : Char) : Bool :=
  c = ' ' || c = '\t' || c = '\n' || c = '\r' || c = Char.ofNat 11 || c = Char.ofNat 12

/-- Python `\d` (ASCII digits). -/
def isDigitPy (c : Char) : Bool :=
  '0' ≤ c && c ≤ '9'

/-- Numeric value of a digit run, as Python `int()` of the matched group. -/
def digitsVal (cs : List Char) : Nat :=
  cs.foldl (fun acc c => acc * 10 + (c.toNat - 48)) 0

/-- Case-insensitive literal match (pattern given lower-case), returning the
rest of the input on success; models matching a keyword under `re.IGNORECASE`. -/
def dropLitCI : List Char → List Char → Option (List Char)
  | [], s => some s
  | _ :: _, [] => none
  | p :: ps, c :: cs => if c.toLower = p then dropLitCI ps cs else none

/-- One step of `re.finditer`: try a match at every position, emit the match and
resume after it, otherwise advance one character.  Fuel is the input length;
every successful match consumes at least the keyword, so fuel never runs out
before the input does. -/
def scanAux {α : Type} (matchAt : List Char → Option (α × List Char)) :
    Nat → List Char → List α
  | 0, _ => []
  | _ + 1, [] => []
  | fuel + 1, c :: rest =>
    match matchAt (c :: rest) with
    | some pr => pr.1 :: scanAux matchAt fuel pr.2
    | none => scanAux matchAt fuel rest

/-- All matches of a pattern in a text, in scan order (`re.finditer`). -/
def scanAll {α : Type} (matchAt : List Char → Option (α × List Char))
    (s : List Char) : List α :=
  scanAux matchAt s.length s

/-- `src/py/action_executor.py` pattern
`CLICK[^\[]*\[\s*(\d+)\s*,\s*(\d+)\s*\]` (IGNORECASE), attempted at the head of
the input: keyword, greedy run of non-`[` filler, then the bracketed pair. -/
def bracketMatchAt (s : List Char) : Option ((Nat × Nat) × List Char) := do
  let s1 ← dropLitCI ['c', 'l', 'i', 'c', 'k'] s
  match s1.dropWhile (fun c => c ≠ '[') with
  | '[' :: s3 =>
    let s4 := s3.dropWhile isSpacePy
    let run1 := s4.takeWhile isDigitPy
    if run1.isEmpty then none else
    let s5 := (s4.drop run1.length).dropWhile isSpacePy
    match s5 with
    | ',' :: s6 =>
      let s7 := s6.dropWhile isSpacePy
      let run2 := s7.takeWhile isDigitPy
      if run2.isEmpty then none else
      let s8 := (s7.drop run2.length).dropWhile isSpacePy
      match s8 with
      | ']' :: s9 => some ((digitsVal run1, digitsVal run2), s9)
      | _ => none
    | _ => none
  | _ => none

/-- `src/py/action_executor.py` pattern
`CLICK[^0-9]*(\d{1,4})\s*,\s*(\d{1,4})` (IGNORECASE) at the head of the input.
The first group must be the entire first digit run after the keyword (a run
longer than 4 leaves a digit adjacent to the group that neither `\s*` nor `,`
can absorb, so the whole attempt fails); the second group greedily takes at
most 4 digits and the match ends there. -/
def altMatchAt (s : List Char) : Option ((Nat × Nat) × List Char) := do
  let s1 ← dropLitCI ['c', 'l', 'i', 'c', 'k'] s
  let s2 := s1.dropWhile (fun c => !(isDigitPy c))
  let run1 := s2.takeWhile isDigitPy
  if run1.isEmpty || run1.length > 4 then none else
  let s3 := (s2.drop run1.length).dropWhile isSpacePy
  match s3 with
  | ',' :: s4 =>
    let s5 := s4.dropWhile isSpacePy
    let run2 := s5.takeWhile isDigitPy
    if run2.isEmpty then none else
    let g2 := run2.take 4
    some ((digitsVal run1, digitsVal g2), s5.drop g2.length)
  | _ => none

/-- `src/py/Action Executor Module.py` pattern `CLICK\s*\((\d+),\s*(\d+)\)`
(IGNORECASE) at the head of the input.  Note: no whitespace is allowed between
the first number and the comma, nor inside the closing parenthesis. -/
def clickParenMatchAt (s : List Char) : Option ((Nat × Nat) × List Char) := do
  let s1 ← dropLitCI ['c', 'l', 'i', 'c', 'k'] s
  match s1.dropWhile isSpacePy with
  | '(' :: s3 =>
    let run1 := s3.takeWhile isDigitPy
    if run1.isEmpty then none else
    match s3.drop run1.length with
    | ',' :: s4 =>
      let s5 := s4.dropWhile isSpacePy
      let run2 := s5.takeWhile isDigitPy
      if run2.isEmpty then none else
      match s5.drop run2.length with
      | ')' :: s6 => some ((digitsVal run1, digitsVal run2), s6)
      | _ => none
    | _ => none
  | _ => none

/-- `src/py/Action Executor Module.py` patterns `TYPE\s*"([^"]+)"` and
`PRESS\s*"([^"]+)"` (IGNORECASE) at the head of the input, for a given keyword:
the group is the maximal non-empty run of non-quote characters, kept verbatim. -/
def quotedMatchAt (kw : List Char) (s : List Char) :
    Option (List Char × List Char) := do
  let s1 ← dropLitCI kw s
  match s1.dropWhile isSpacePy with
  | '\"' :: s3 =>
    let run := s3.takeWhile (fun c => c ≠ '\"')
    if run.isEmpty then none else
    match s3.drop run.length with
    | '\"' :: s4 => some (run, s4)
    | _ => none
  | _ => none

/-- ActionDirective: the dictionaries produced by the two parsers
(`{'type':'click','x','y'}`, `{'type':'type','text'}`, `{'type':'press','key'}`). -/
inductive PAct
  | click (x y : Int)
  | typeText (s : String)
  | press (k : String)
deriving DecidableEq

/-- Python `a.get("x") == x and a.get("y") == y` used by the duplicate check in
`parse_actions`; for non-click dictionaries `get` yields `None`, never equal. -/
def clickXYMatches (a : PAct) (x y : Int) : Bool :=
  match a with
  | .click ax ay => ax = x && ay = y
  | _ => false

/-- `text.replace('\r', '\n')` at the top of `parse_actions`. -/
def normalizeCR (s : List Char) : List Char :=
  s.map (fun c => if c = '\r' then '\n' else c)

/-- One step of the second pass of `parse_actions`: append a bare-number match
unless its coordinates were already captured. -/
def dedupStep (acc : List PAct) (p : Nat × Nat) : List PAct :=
  if acc.any (fun a => clickXYMatches a (p.1 : Int) (p.2 : Int)) then acc
  else acc ++ [PAct.click (p.1 : Int) (p.2 : Int)]

/-- Reference form of the second pass, written from the amended claim's words
(to be compared with the `foldl` of `dedupStep` taken from the source): walk
the bare-number matches in scan order, skip every pair whose coordinates are
already matched by an accumulated directive, and record each kept click so
that later duplicates of it are skipped as well. -/
def dedupedAlt : List PAct → List (Nat × Nat) → List PAct
  | _, [] => []
  | acc, p :: ps =>
    if acc.any (fun a => clickXYMatches a (p.1 : Int) (p.2 : Int)) then
      dedupedAlt acc ps
    else
      PAct.click (p.1 : Int) (p.2 : Int) ::
        dedupedAlt (acc ++ [PAct.click (p.1 : Int) (p.2 : Int)]) ps

/-- `ActionExecutor.parse_actions` (src/py/action_executor.py, lines 84-119):
empty text yields no actions; otherwise run the bracket pattern over the
CR-normalized text, then the bare-number pattern with duplicate suppression. -/
def parse_actions (text : String) : List PAct :=
  if text = "" then []
  else
    let normalized := normalizeCR text.data
    let bracketActs := (scanAll bracketMatchAt normalized).map
      (fun p => PAct.click (p.1 : Int) (p.2 : Int))
    (scanAll altMatchAt normalized).foldl dedupStep bracketActs

/-- `ActionExecutor._parse_actions` (src/py/Action Executor Module.py, lines
58-76): three `findall` passes appended in order — parenthesised clicks, quoted
TYPE texts (verbatim), quoted PRESS keys (lower-cased). -/
def parseActionsModule (response : String) : List PAct :=
  let cs := response.data
  ((scanAll clickParenMatchAt cs).map
      (fun p => PAct.click (p.1 : Int) (p.2 : Int)))
    ++ ((scanAll (quotedMatchAt ['t', 'y', 'p', 'e']) cs).map
      (fun r => PAct.typeText (String.mk r)))
    ++ ((scanAll (quotedMatchAt ['p', 'r', 'e', 's', 's']) cs).map
      (fun r => PAct.press (String.mk (r.map Char.toLower))))

/-! Device layer and executor state (src/py/action_executor.py and
src/py/Action Executor Module.py).  A device operation is one call into the
pyautogui layer or a pacing sleep; executing code is embedded as a function
from its inputs to the list of device operations it emits. -/

/-- One call into the device-control layer, or an explicit pacing sleep.
`clickAt` is `pyautogui.click(x, y)` (Action Executor Module), `moveTo` +
`clickBtn` is `pyautogui.moveTo(x, y)` followed by `pyautogui.click()`
(action_executor), `write` is `pyautogui.write(text, interval=0.05)`,
`pressKey` is `pyautogui.press(key)`. -/
inductive DeviceOp
  | moveTo (x y : Int)
  | clickBtn
  | clickAt (x y : Int)
  | write (text : String)
  | pressKey (k : String)
  | sleep (d : Rat)
deriving DecidableEq

/-- A value stored under `width`/`height` in a loaded JSON report:
either something `int()` converts (its value), or something on which
`int()` raises. -/
inductive CvVal
  | intVal (n : Int)
  | malformed
deriving DecidableEq

/-- The dictionary found under `cv_analysis` (or `cv`) in a loaded report:
its optional `width`/`height` entries plus whether any other keys exist
(Python truthiness of a dict is non-emptiness). -/
structure CvDict where
  width : Option CvVal
  height : Option CvVal
  hasOtherKeys : Bool
deriving DecidableEq

/-- Python truthiness of the dictionary: it is non-empty. -/
def CvDict.isNonempty (d : CvDict) : Bool :=
  d.width.isSome || d.height.isSome || d.hasOtherKeys

/-- `int(cv_info.get(key, 0))`: a missing key defaults to `0`; a malformed
value makes `int()` raise (`none`). -/
def toIntOpt : Option CvVal → Option Int
  | none => some 0
  | some (CvVal.intVal n) => some n
  | some CvVal.malformed => none

/-- The fields of a loaded analysis report that `execute_actions` consults. -/
structure Report where
  cv_analysis : Option CvDict
  cv : Option CvDict
deriving DecidableEq

/-- `latest_report.get("cv_analysis") or latest_report.get("cv") or None`
(src/py/action_executor.py, lines 168-171) combined with the
`if cv_info and isinstance(cv_info, dict)` truthiness test: the first
non-empty dictionary wins, an empty dictionary is falsy and skipped. -/
def resolveCvInfo : Option Report → Option CvDict
  | none => none
  | some rep =>
    match rep.cv_analysis with
    | some d =>
      if d.isNonempty then some d
      else
        match rep.cv with
        | some d2 => if d2.isNonempty then some d2 else none
        | none => none
    | none =>
      match rep.cv with
      | some d2 => if d2.isNonempty then some d2 else none
      | none => none

/-- The device operations of one `click` action inside
`ActionExecutor.execute_actions` (src/py/action_executor.py, lines 175-191):
if cv info is available, `int()` both dimensions (an exception from the
conversion is swallowed and the bounds check abandoned), skip when out of
bounds, otherwise move, click and sleep the configured delay. -/
def clickOps (cvInfo : Option CvDict) (delay : Rat) (x y : Int) : List DeviceOp :=
  match cvInfo with
  | some d =>
    match toIntOpt d.width with
    | some w =>
      match toIntOpt d.height with
      | some h =>
        if 0 ≤ x ∧ x < w ∧ 0 ≤ y ∧ y < h then
          [DeviceOp.moveTo x y, DeviceOp.clickBtn, DeviceOp.sleep delay]
        else []
      | none => [DeviceOp.moveTo x y, DeviceOp.clickBtn, DeviceOp.sleep delay]
    | none => [DeviceOp.moveTo x y, DeviceOp.clickBtn, DeviceOp.sleep delay]
  | none => [DeviceOp.moveTo x y, DeviceOp.clickBtn, DeviceOp.sleep delay]

/-- `ActionExecutor.execute_actions` (src/py/action_executor.py, lines
153-201): no actions emit nothing; otherwise each `click` goes through the
bounds check, each `type` writes its text and sleeps, and unknown action
types only log. -/
def execute_actions (report : Option Report) (delay : Rat)
    (acts : List PAct) : List DeviceOp :=
  if acts.isEmpty then []
  else
    let cvInfo := resolveCvInfo report
    acts.foldl
      (fun ops a =>
        ops ++
          match a with
          | PAct.click x y => clickOps cvInfo delay x y
          | PAct.typeText t => [DeviceOp.write t, DeviceOp.sleep delay]
          | PAct.press _ => [])
      []

/-- `ActionExecutor._execute_click` (src/py/Action Executor Module.py, lines
90-97): click only when `0 <= x < self.screen_width and
0 <= y < self.screen_height`, otherwise log and do nothing. -/
def execute_click (screenW screenH : Int) (x y : Int) : List DeviceOp :=
  if 0 ≤ x ∧ x < screenW ∧ 0 ≤ y ∧ y < screenH then [DeviceOp.clickAt x y]
  else []

/-- One iteration of the confirmation busy-wait: the cancel key and confirm
key states observed by `keyboard.is_pressed` at that poll. -/
structure Poll where
  cancel : Bool
  confirm : Bool
deriving DecidableEq

/-- The busy-wait loop of `wait_for_confirmation` (src/py/action_executor.py,
lines 138-148) over a finite trace of polls: the cancel check precedes the
confirm check in every iteration; `none` means the trace ended with neither
signal seen (the loop would still be waiting). -/
def waitLoop : List Poll → Option Bool
  | [] => none
  | p :: rest =>
    if p.cancel then some false
    else if p.confirm then some true
    else waitLoop rest

/-- `ActionExecutor.wait_for_confirmation` (src/py/action_executor.py, lines
121-151): auto-execute returns `True` immediately; a missing keyboard module
proceeds by default (fail-open); otherwise the poll loop decides. -/
def wait_for_confirmation (autoExec keyboardAvail : Bool)
    (polls : List Poll) : Option Bool :=
  if autoExec then some true
  else if !keyboardAvail then some true
  else waitLoop polls

/-- `cancelFirst polls`: the first poll in the trace at which either signal is
seen has the cancel signal asserted (within one poll, cancel wins because the
code checks it first). -/
def cancelFirst : List Poll → Bool
  | [] => false
  | p :: rest => p.cancel || (!p.confirm && cancelFirst rest)

/-- The `random.choice(["click", "type"])` outcome in `run_from_response`. -/
inductive Mode
  | clickMode
  | typeMode
deriving DecidableEq

/-- The `score` closure of `run_from_response` (src/py/action_executor.py,
lines 271-276): Manhattan distance of a click to the screen centre,
`float('inf')` (`none`) for anything else. -/
def score (cx cy : Int) : PAct → Option Nat
  | PAct.click x y => some ((x - cx).natAbs + (y - cy).natAbs)
  | _ => none

/-- Comparison on scores with `none` as `float('inf')`. -/
def scoreLe (a b : Option Nat) : Bool :=
  match a, b with
  | none, none => true
  | none, some _ => false
  | some _, none => true
  | some m, some n => m ≤ n

/-- Stable insertion for `sorted(actions, key=score)`: an element goes after
every already-placed element of less-or-equal score. -/
def insertByScore (cx cy : Int) (xs : List PAct) (a : PAct) : List PAct :=
  match xs with
  | [] => [a]
  | y :: ys =>
    if scoreLe (score cx cy y) (score cx cy a) then y :: insertByScore cx cy ys a
    else a :: y :: ys

/-- `sorted(actions, key=score)`: Python sorts are stable. -/
def sortByScore (cx cy : Int) (acts : List PAct) : List PAct :=
  acts.foldl (insertByScore cx cy) []

/-- `ActionExecutor.run_from_response` (src/py/action_executor.py, lines
242-294).  Inputs that the Python code reads from the environment are
parameters: the screen size (`pyautogui.size()` or the 1920x1080 fallback),
`EXECUTE_MAX_ACTIONS`, the action delay, the `random.choice` outcome, the
string `_extract_typing_text_from_report` would return, the latest loaded
report, the auto-execute flag, keyboard availability, and the confirmation
poll trace.  The result pairs the return value with the device operations
emitted; `none` means the confirmation wait never resolved. -/
def run_from_response (screenW screenH : Int) (maxActions : Nat) (delay : Rat)
    (mode : Mode) (typingText : String) (report : Option Report)
    (autoExec keyboardAvail : Bool) (polls : List Poll)
    (text : String) : Option (Bool × List DeviceOp) :=
  let actions := parse_actions text
  if actions.isEmpty then some (false, [])
  else
    let selected :=
      match mode with
      | Mode.typeMode => [PAct.typeText typingText]
      | Mode.clickMode =>
        let cx := Int.fdiv screenW 2
        let cy := Int.fdiv screenH 2
        (sortByScore cx cy actions).take maxActions
    match wait_for_confirmation autoExec keyboardAvail polls with
    | none => none
    | some ok =>
      if ok then some (true, execute_actions report delay selected)
      else some (false, [])

/-! Screen analyzer (src/py/Screen Analyzer Module.py). -/

/-- Python `str.strip()` on the ASCII inputs at hand: drop leading and
trailing whitespace. -/
def stripChars (cs : List Char) : List Char :=
  ((cs.dropWhile isSpacePy).reverse.dropWhile isSpacePy).reverse

/-- `str.strip()` lifted to `String`. -/
def stripStr (s : String) : String :=
  String.mk (stripChars s.data)

/-- One OCR token as delivered by `pytesseract.image_to_data`: parallel-array
entry `i` with its text, integer confidence, and box. -/
structure OcrFrag where
  text : String
  conf : Int
  left : Int
  top : Int
  width : Int
  height : Int
deriving DecidableEq

/-- One element of the `text_elements` list built by
`_extract_text_with_ocr`: stripped text, coordinates, confidence. -/
structure TextElem where
  text : String
  x : Int
  y : Int
  width : Int
  height : Int
  confidence : Int
deriving DecidableEq

/-- The dictionary appended for a kept fragment. -/
def mkTextElem (f : OcrFrag) : TextElem :=
  ⟨stripStr f.text, f.left, f.top, f.width, f.height, f.conf⟩

/-- `ScreenAnalyzer._extract_text_with_ocr` (src/py/Screen Analyzer Module.py,
lines 101-121): keep fragment `i` iff `conf > threshold` (strict) and its
stripped text is non-empty, in OCR order. -/
def extract_text_with_ocr (threshold : Int) : List OcrFrag → List TextElem
  | [] => []
  | f :: rest =>
    if threshold < f.conf then
      if stripStr f.text ≠ "" then mkTextElem f :: extract_text_with_ocr threshold rest
      else extract_text_with_ocr threshold rest
    else extract_text_with_ocr threshold rest

/-- A contour's bounding rectangle, as produced by `cv2.boundingRect`. -/
structure Rect where
  x : Int
  y : Int
  w : Int
  h : Int
deriving DecidableEq

/-- `ScreenAnalyzer._detect_ui_elements` (src/py/Screen Analyzer Module.py,
lines 134-152), from the bounding rectangles of the extracted contours (blur,
Canny and contour extraction live in OpenCV and are outside the embedding):
the exact `if`/`elif` size filter, `(buttons, windows)` in traversal order. -/
def detect_ui_elements : List Rect → List Rect × List Rect
  | [] => ([], [])
  | r :: rest =>
    let p := detect_ui_elements rest
    if r.w > 20 ∧ r.h > 10 ∧ (100 > r.w ∧ r.w > 20) ∧ (50 > r.h ∧ r.h > 10) then
      (r :: p.1, p.2)
    else if r.w > 100 ∧ r.h > 100 then
      (p.1, r :: p.2)
    else p

/-! Vision processor and wrapper (src/py/vision_processor.py,
src/py/screen_analyzer.py), for the OCR-failure claim. -/

/-- One entry of the `pytesseract.image_to_data` parallel arrays as read by
`UniversalVisionProcessor.ocr_image`: text, the raw `conf` entry (`none` when
`float()` on it raises), and the box. -/
structure OcrTok where
  text : String
  confRaw : Option Rat
  left : Int
  top : Int
  width : Int
  height : Int
deriving DecidableEq

/-- One element of the `texts` list built by `ocr_image`. -/
structure VpText where
  text : String
  conf : Rat
  bbox : List Int
deriving DecidableEq

/-- The body of the `ocr_image` loop for one token: skip empty or
whitespace-only text, default an unconvertible confidence to `-1.0`. -/
def ocrTokItem (t : OcrTok) : Option VpText :=
  if t.text = "" ∨ stripStr t.text = "" then none
  else
    some ⟨stripStr t.text,
      (match t.confRaw with
       | some c => c
       | none => -1),
      [t.left, t.top, t.width, t.height]⟩

/-- `UniversalVisionProcessor.ocr_image` (src/py/vision_processor.py, lines
78-103): without pytesseract return `[]`; an exception from
`pytesseract.image_to_data` is caught and yields `[]`; otherwise filter and
convert the tokens. -/
def ocr_image (tessAvailable : Bool)
    (ocrCall : Except String (List OcrTok)) : List VpText :=
  if !tessAvailable then []
  else
    match ocrCall with
    | Except.error _ => []
    | Except.ok toks => toks.filterMap ocrTokItem

/-- A detected button of `detect_buttons` (bbox plus area). -/
structure BtnBox where
  bbox : List Int
  area : Int
deriving DecidableEq

/-- The result dictionary of `UniversalVisionProcessor.process_image`. -/
structure CvOut where
  texts : List VpText
  buttons : List BtnBox
  width : Int
  height : Int
  path : String
deriving DecidableEq

/-- `UniversalVisionProcessor.process_image` (src/py/vision_processor.py,
lines 137-161): OCR the enhanced image, attempt contour-based button
detection when cv2/numpy are available (an exception there degrades to no
buttons), and record the image size.  The button-detection call itself is an
OpenCV computation and enters as its result. -/
def process_image (tessAvailable : Bool)
    (ocrCall : Except String (List OcrTok)) (cvAvailable : Bool)
    (btnCall : Except String (List BtnBox)) (w h : Int) (path : String) :
    CvOut :=
  ⟨ocr_image tessAvailable ocrCall,
    (if cvAvailable then
        match btnCall with
        | Except.ok bs => bs
        | Except.error _ => []
      else []),
    w, h, path⟩

/-- Whatever the original `ScreenAnalyzer.analyze_screenshot` returns when it
succeeds; only its presence matters to the claims. -/
structure BaseReport where
  summary : String
deriving DecidableEq

/-- The merged dictionary returned by the wrapper. -/
structure WrappedReport where
  base : Option BaseReport
  cv_analysis : Option CvOut
deriving DecidableEq

/-- `_WrappedScreenAnalyzer.analyze_screenshot` (src/py/screen_analyzer.py,
lines 72-104): a failure of the original analyzer is caught and logged (base
stays empty); the vision processor, when constructed, contributes
`cv_analysis` unless its own call raised.  The function always returns a
report dictionary — no exception escapes. -/
def analyze_screenshot (origCall : Except String BaseReport)
    (cvProcAvailable : Bool) (cvCall : Except String CvOut) : WrappedReport :=
  ⟨(match origCall with
    | Except.ok r => some r
    | Except.error _ => none),
    (if cvProcAvailable then
        match cvCall with
        | Except.ok c => some c
        | Except.error _ => none
      else none)⟩

/-! Concrete fixtures used by the theorems. -/

/-- A loaded report whose `cv_analysis` carries the given screen size. -/
def dimsReport (w h : Int) : Report :=
  ⟨some ⟨some (CvVal.intVal w), some (CvVal.intVal h), false⟩, none⟩

/-- The sample response of the end-to-end scenario (also the `__main__` block
of src/py/action_executor.py, without its trailing newline variation). -/
def c4text : String :=
  "1. CLICK button at coordinates [89, 17]\n2. CLICK button at coordinates [198, 17]\n3. CLICK button at [271, 17]"

/-- The device-operation trace the end-to-end claim predicts: all three
clicks, left to right, paced by the configured delay. -/
def c4claimedOps (delay : Rat) : List DeviceOp :=
  [DeviceOp.moveTo 89 17, DeviceOp.clickBtn, DeviceOp.sleep delay,
    DeviceOp.moveTo 198 17, DeviceOp.clickBtn, DeviceOp.sleep delay,
    DeviceOp.moveTo 271 17, DeviceOp.clickBtn, DeviceOp.sleep delay]

/-- A text in which a bare-number CLICK precedes a bracketed CLICK. -/
def c9text : String :=
  "CLICK at 5,6 CLICK [7, 8]"

/-- Sample OCR fragments: one clearly kept, one exactly at the default
threshold 30, one whitespace-only. -/
def fragsEx : List OcrFrag :=
  [⟨" hi ", 85, 1, 2, 3, 4⟩, ⟨"edge", 30, 0, 0, 1, 1⟩, ⟨"  ", 90, 0, 0, 1, 1⟩]

/-! Helper lemmas. -/

/-- If the first signal the busy-wait sees is a cancel, the wait resolves to
`False` (do not execute). -/
theorem waitLoop_of_cancelFirst (polls : List Poll) (h : cancelFirst polls = true) :
    waitLoop polls = some false := by
  induction polls with
  | nil => simp [cancelFirst] at h
  | cons p rest ih =>
    by_cases hc : p.cancel = true
    · simp [waitLoop, hc]
    · have hc2 : p.cancel = false := by simpa using hc
      simp only [cancelFirst, hc2, Bool.false_or, Bool.and_eq_true,
        Bool.not_eq_true'] at h
      simp [waitLoop, hc2, h.1, ih h.2]

/-- Unfolding of the OCR filter on one fragment. -/
theorem extract_cons (thr : Int) (f : OcrFrag) (rest : List OcrFrag) :
    extract_text_with_ocr thr (f :: rest) =
      if thr < f.conf ∧ stripStr f.text ≠ "" then
        mkTextElem f :: extract_text_with_ocr thr rest
      else extract_text_with_ocr thr rest := by
  by_cases hc : thr < f.conf
  · by_cases ht : stripStr f.text ≠ ""
    · simp [extract_text_with_ocr, hc, ht]
    · simp [extract_text_with_ocr, hc, ht]
  · simp [extract_text_with_ocr, hc]

/-- Every element the OCR filter emits has confidence strictly above the
threshold and non-empty (stripped) text. -/
theorem extract_sound (thr : Int) (frs : List OcrFrag) :
    ∀ e ∈ extract_text_with_ocr thr frs, thr < e.confidence ∧ e.text ≠ "" := by
  induction frs with
  | nil => intro e he; simp [extract_text_with_ocr] at he
  | cons g rest ih =>
    intro e he
    rw [extract_cons] at he
    split_ifs at he with hg
    · rcases List.mem_cons.mp he with h | h
      · subst h
        exact ⟨hg.1, by simpa [mkTextElem] using hg.2⟩
      · exact ih e h
    · exact ih e he

/-- Every fragment above the threshold with non-empty stripped text appears in
the OCR filter's output. -/
theorem extract_complete (thr : Int) (frs : List OcrFrag) :
    ∀ f ∈ frs, thr < f.conf → stripStr f.text ≠ "" →
      mkTextElem f ∈ extract_text_with_ocr thr frs := by
  induction frs with
  | nil => intro f hf; cases hf
  | cons g rest ih =>
    intro f hf hconf htext
    rw [extract_cons]
    rcases List.mem_cons.mp hf with h | h
    · subst h
      rw [if_pos ⟨hconf, htext⟩]
      exact List.mem_cons_self _ _
    · split_ifs with hg
      · exact List.mem_cons_of_mem _ (ih f h hconf htext)
      · exact ih f h hconf htext

/-- The source's duplicate-suppressing fold computes exactly the reference
form: the accumulator followed by `dedupedAlt` of the scanned pairs. -/
theorem foldl_dedupStep_eq (ps : List (Nat × Nat)) :
    ∀ acc : List PAct, ps.foldl dedupStep acc = acc ++ dedupedAlt acc ps := by
  induction ps with
  | nil => intro acc; simp [dedupedAlt]
  | cons q qs ih =>
    intro acc
    by_cases hq : acc.any (fun a => clickXYMatches a (q.1 : Int) (q.2 : Int))
    · have hstep : dedupStep acc q = acc := by simp [dedupStep, hq]
      rw [List.foldl_cons, hstep, ih acc]
      simp [dedupedAlt, hq]
    · have hstep : dedupStep acc q =
          acc ++ [PAct.click (q.1 : Int) (q.2 : Int)] := by
        simp [dedupStep, hq]
      rw [List.foldl_cons, hstep, ih]
      simp [dedupedAlt, hq]

/-- The deduplicated second pass is an order-preserving subsequence of the
bare-number matches in scan order. -/
theorem dedupedAlt_sublist (ps : List (Nat × Nat)) :
    ∀ acc : List PAct,
      List.Sublist (dedupedAlt acc ps)
        (ps.map fun p => PAct.click (p.1 : Int) (p.2 : Int)) := by
  induction ps with
  | nil => intro acc; simp [dedupedAlt]
  | cons q qs ih =>
    intro acc
    by_cases hq : acc.any (fun a => clickXYMatches a (q.1 : Int) (q.2 : Int))
    · have he : dedupedAlt acc (q :: qs) = dedupedAlt acc qs := by
        simp [dedupedAlt, hq]
      rw [he, List.map_cons]
      exact (ih acc).cons _
    · have he : dedupedAlt acc (q :: qs) =
          PAct.click (q.1 : Int) (q.2 : Int) ::
            dedupedAlt (acc ++ [PAct.click (q.1 : Int) (q.2 : Int)]) qs := by
        simp [dedupedAlt, hq]
      rw [he, List.map_cons]
      exact (ih _).cons₂ _

/-- Exact membership in the deduplicated second pass: a click appears iff its
coordinates are produced by the bare-number scan and no accumulated directive
already matches them. -/
theorem mem_dedupedAlt (ps : List (Nat × Nat)) :
    ∀ (acc : List PAct) (x y : Int),
      PAct.click x y ∈ dedupedAlt acc ps ↔
        ((∃ p ∈ ps, (p.1 : Int) = x ∧ (p.2 : Int) = y) ∧
          acc.any (fun b => clickXYMatches b x y) = false) := by
  induction ps with
  | nil => intro acc x y; simp [dedupedAlt]
  | cons q qs ih =>
    intro acc x y
    by_cases hq : acc.any (fun a => clickXYMatches a (q.1 : Int) (q.2 : Int))
    · have he : dedupedAlt acc (q :: qs) = dedupedAlt acc qs := by
        simp [dedupedAlt, hq]
      rw [he, ih acc x y]
      constructor
      · rintro ⟨⟨p, hp, hx, hy⟩, hnm⟩
        exact ⟨⟨p, List.mem_cons_of_mem _ hp, hx, hy⟩, hnm⟩
      · rintro ⟨⟨p, hp, hx, hy⟩, hnm⟩
        rcases List.mem_cons.mp hp with h | h
        · subst h
          rw [← hx, ← hy] at hnm
          rw [hq] at hnm
          cases hnm
        · exact ⟨⟨p, h, hx, hy⟩, hnm⟩
    · have he : dedupedAlt acc (q :: qs) =
          PAct.click (q.1 : Int) (q.2 : Int) ::
            dedupedAlt (acc ++ [PAct.click (q.1 : Int) (q.2 : Int)]) qs := by
        simp [dedupedAlt, hq]
      rw [he]
      constructor
      · intro hm
        rcases List.mem_cons.mp hm with h | h
        · have hx : x = (q.1 : Int) ∧ y = (q.2 : Int) := by
            simpa [PAct.click.injEq] using h
          refine ⟨⟨q, List.mem_cons_self _ _, hx.1.symm, hx.2.symm⟩, ?_⟩
          rw [hx.1, hx.2]
          exact Bool.eq_false_iff.mpr hq
        · rw [ih _ x y] at h
          obtain ⟨⟨p, hp, hx, hy⟩, hnm⟩ := h
          rw [List.any_append] at hnm
          rcases Bool.or_eq_false_iff.mp hnm with ⟨h1, _⟩
          exact ⟨⟨p, List.mem_cons_of_mem _ hp, hx, hy⟩, h1⟩
      · rintro ⟨⟨p, hp, hx, hy⟩, hnm⟩
        by_cases hpq : (q.1 : Int) = x ∧ (q.2 : Int) = y
        · have : PAct.click x y = PAct.click (q.1 : Int) (q.2 : Int) := by
            rw [hpq.1, hpq.2]
          rw [this]
          exact List.mem_cons_self _ _
        · rcases List.mem_cons.mp hp with h | h
          · subst h
            exact absurd ⟨hx, hy⟩ hpq
          · apply List.mem_cons_of_mem
            rw [ih _ x y]
            refine ⟨⟨p, h, hx, hy⟩, ?_⟩
            rw [List.any_append]
            have hone :
                ([PAct.click (q.1 : Int) (q.2 : Int)].any
                  fun b => clickXYMatches b x y) = false := by
              simp [clickXYMatches]
              exact fun h1 h2 => hpq ⟨h1, h2⟩
            rw [hnm, hone]
            rfl

/-- The deduplicated second pass contains no duplicate directives. -/
theorem dedupedAlt_nodup (ps : List (Nat × Nat)) :
    ∀ acc : List PAct, (dedupedAlt acc ps).Nodup := by
  induction ps with
  | nil => intro acc; simp [dedupedAlt]
  | cons q qs ih =>
    intro acc
    by_cases hq : acc.any (fun a => clickXYMatches a (q.1 : Int) (q.2 : Int))
    · have he : dedupedAlt acc (q :: qs) = dedupedAlt acc qs := by
        simp [dedupedAlt, hq]
      rw [he]
      exact ih acc
    · have he : dedupedAlt acc (q :: qs) =
          PAct.click (q.1 : Int) (q.2 : Int) ::
            dedupedAlt (acc ++ [PAct.click (q.1 : Int) (q.2 : Int)]) qs := by
        simp [dedupedAlt, hq]
      rw [he]
      refine List.nodup_cons.mpr ⟨?_, ih _⟩
      intro hmem
      rw [mem_dedupedAlt qs _ _ _] at hmem
      obtain ⟨_, hnm⟩ := hmem
      rw [List.any_append] at hnm
      rcases Bool.or_eq_false_iff.mp hnm with ⟨_, h2⟩
      have : ([PAct.click (q.1 : Int) (q.2 : Int)].any
          fun b => clickXYMatches b (q.1 : Int) (q.2 : Int)) = true := by
        simp [clickXYMatches]
      rw [this] at h2
      cases h2

/-- Membership in the buttons list of the element detector. -/
theorem mem_detect_buttons (rects : List Rect) (r : Rect) :
    r ∈ (detect_ui_elements rects).1 ↔
      r ∈ rects ∧ (20 < r.w ∧ r.w < 100) ∧ (10 < r.h ∧ r.h < 50) := by
  induction rects with
  | nil => simp [detect_ui_elements]
  | cons g rest ih =>
    by_cases hb : g.w > 20 ∧ g.h > 10 ∧ (100 > g.w ∧ g.w > 20) ∧ (50 > g.h ∧ g.h > 10)
    · have hgl : detect_ui_elements (g :: rest) =
          (g :: (detect_ui_elements rest).1, (detect_ui_elements rest).2) := by
        simp [detect_ui_elements, hb]
      rw [hgl]
      constructor
      · intro hm
        rcases List.mem_cons.mp hm with h | h
        · subst h
          exact ⟨List.mem_cons_self _ _, by omega⟩
        · obtain ⟨hmem, hc⟩ := ih.mp h
          exact ⟨List.mem_cons_of_mem _ hmem, hc⟩
      · rintro ⟨hm, hc⟩
        rcases List.mem_cons.mp hm with h | h
        · subst h
          exact List.mem_cons_self _ _
        · exact List.mem_cons_of_mem _ (ih.mpr ⟨h, hc⟩)
    · by_cases hw : g.w > 100 ∧ g.h > 100
      · have hgl : detect_ui_elements (g :: rest) =
            ((detect_ui_elements rest).1, g :: (detect_ui_elements rest).2) := by
          simp [detect_ui_elements, hb, hw]
        rw [hgl]
        constructor
        · intro hm
          obtain ⟨hmem, hc⟩ := ih.mp hm
          exact ⟨List.mem_cons_of_mem _ hmem, hc⟩
        · rintro ⟨hm, hc⟩
          rcases List.mem_cons.mp hm with h | h
          · subst h
            omega
          · exact ih.mpr ⟨h, hc⟩
      · have hgl : detect_ui_elements (g :: rest) = detect_ui_elements rest := by
          simp [detect_ui_elements, hb, hw]
        rw [hgl]
        constructor
        · intro hm
          obtain ⟨hmem, hc⟩ := ih.mp hm
          exact ⟨List.mem_cons_of_mem _ hmem, hc⟩
        · rintro ⟨hm, hc⟩
          rcases List.mem_cons.mp hm with h | h
          · subst h
            omega
          · exact ih.mpr ⟨h, hc⟩

/-- Membership in the windows list of the element detector. -/
theorem mem_detect_windows (rects : List Rect) (r : Rect) :
    r ∈ (detect_ui_elements rects).2 ↔ r ∈ rects ∧ 100 < r.w ∧ 100 < r.h := by
  induction rects with
  | nil => simp [detect_ui_elements]
  | cons g rest ih =>
    by_cases hb : g.w > 20 ∧ g.h > 10 ∧ (100 > g.w ∧ g.w > 20) ∧ (50 > g.h ∧ g.h > 10)
    · have hgl : detect_ui_elements (g :: rest) =
          (g :: (detect_ui_elements rest).1, (detect_ui_elements rest).2) := by
        simp [detect_ui_elements, hb]
      rw [hgl]
      constructor
      · intro hm
        obtain ⟨hmem, hc⟩ := ih.mp hm
        exact ⟨List.mem_cons_of_mem _ hmem, hc⟩
      · rintro ⟨hm, hc⟩
        rcases List.mem_cons.mp hm with h | h
        · subst h
          omega
        · exact ih.mpr ⟨h, hc⟩
    · by_cases hw : g.w > 100 ∧ g.h > 100
      · have hgl : detect_ui_elements (g :: rest) =
            ((detect_ui_elements rest).1, g :: (detect_ui_elements rest).2) := by
          simp [detect_ui_elements, hb, hw]
        rw [hgl]
        constructor
        · intro hm
          rcases List.mem_cons.mp hm with h | h
          · subst h
            exact ⟨List.mem_cons_self _ _, by omega⟩
          · obtain ⟨hmem, hc⟩ := ih.mp h
            exact ⟨List.mem_cons_of_mem _ hmem, hc⟩
        · rintro ⟨hm, hc⟩
          rcases List.mem_cons.mp hm with h | h
          · subst h
            exact List.mem_cons_self _ _
          · exact List.mem_cons_of_mem _ (ih.mpr ⟨h, hc⟩)
      · have hgl : detect_ui_elements (g :: rest) = detect_ui_elements rest := by
          simp [detect_ui_elements, hb, hw]
        rw [hgl]
        constructor
        · intro hm
          obtain ⟨hmem, hc⟩ := ih.mp hm
          exact ⟨List.mem_cons_of_mem _ hmem, hc⟩
        · rintro ⟨hm, hc⟩
          rcases List.mem_cons.mp hm with h | h
          · subst h
            omega
          · exact ih.mpr ⟨h, hc⟩

/-! Claim theorems. -/

/-- C1: with auto-execute disabled (and the keyboard capability present, i.e.
the gate really is awaiting confirmation), a cancel signal asserted before any
confirm signal makes `run_from_response` return `False` having emitted zero
device operations — no pointer move, click or keystroke; `Cancelled` is
terminal for the cycle. -/
theorem c1_cancel_zero_device_ops (screenW screenH : Int) (maxActions : Nat)
    (delay : Rat) (mode : Mode) (typingText : String) (report : Option Report)
    (polls : List Poll) (text : String) (h : cancelFirst polls = true) :
    run_from_response screenW screenH maxActions delay mode typingText report
      false true polls text = some (false, []) := by
  unfold run_from_response
  by_cases he : (parse_actions text).isEmpty
  · simp [he]
  · simp [he, wait_for_confirmation, waitLoop_of_cancelFirst polls h]

/-- C1 witness: a concrete cancelled cycle over the sample response. -/
theorem c1_cancel_zero_device_ops_witness :
    cancelFirst [⟨true, false⟩] = true ∧
      run_from_response 1920 1080 1 (1 / 2) Mode.clickMode "t" none false true
        [⟨true, false⟩] c4text = some (false, []) :=
  ⟨by decide,
    c1_cancel_zero_device_ops 1920 1080 1 (1 / 2) Mode.clickMode "t" none
      [⟨true, false⟩] c4text (by decide)⟩

/-- C2: against known screen dimensions an out-of-bounds click is skipped with
no device call, both by `_execute_click` (Action Executor Module) and by
`execute_actions` checking a report with those dimensions; an in-bounds click
reaches the device (a click at the point, resp. pointer move plus primary
click). -/
theorem c2_click_bounds (w h x y : Int) (delay : Rat) :
    (¬(0 ≤ x ∧ x < w ∧ 0 ≤ y ∧ y < h) →
        execute_click w h x y = [] ∧
        execute_actions (some (dimsReport w h)) delay [PAct.click x y] = []) ∧
    ((0 ≤ x ∧ x < w ∧ 0 ≤ y ∧ y < h) →
        execute_click w h x y = [DeviceOp.clickAt x y] ∧
        execute_actions (some (dimsReport w h)) delay [PAct.click x y] =
          [DeviceOp.moveTo x y, DeviceOp.clickBtn, DeviceOp.sleep delay]) := by
  constructor
  · intro hout
    refine ⟨by simp [execute_click, hout], ?_⟩
    simp [execute_actions, dimsReport, resolveCvInfo, CvDict.isNonempty,
      clickOps, toIntOpt, hout]
  · intro hin
    refine ⟨by simp [execute_click, hin], ?_⟩
    simp [execute_actions, dimsReport, resolveCvInfo, CvDict.isNonempty,
      clickOps, toIntOpt, hin]

/-- C2 witness: the three concrete clicks of the bounds property at
1920x1080. -/
theorem c2_click_bounds_witness :
    (execute_click 1920 1080 (-5) 10 = [] ∧
      execute_actions (some (dimsReport 1920 1080)) (1 / 2)
        [PAct.click (-5) 10] = []) ∧
    (execute_click 1920 1080 2000 10 = [] ∧
      execute_actions (some (dimsReport 1920 1080)) (1 / 2)
        [PAct.click 2000 10] = []) ∧
    (execute_click 1920 1080 960 540 = [DeviceOp.clickAt 960 540] ∧
      execute_actions (some (dimsReport 1920 1080)) (1 / 2)
        [PAct.click 960 540] =
        [DeviceOp.moveTo 960 540, DeviceOp.clickBtn, DeviceOp.sleep (1 / 2)]) :=
  ⟨(c2_click_bounds 1920 1080 (-5) 10 (1 / 2)).1 (by decide),
    (c2_click_bounds 1920 1080 2000 10 (1 / 2)).1 (by decide),
    (c2_click_bounds 1920 1080 960 540 (1 / 2)).2 (by decide)⟩

/-- C3: each of the three phrasings parses to exactly the single directive
`Click{x:89, y:17}`; in particular the bare-number pass does not duplicate the
bracketed match. -/
theorem c3_click_roundtrip :
    parse_actions "CLICK (89, 17)" = [PAct.click 89 17] ∧
    parse_actions "CLICK button at coordinates [89, 17]" = [PAct.click 89 17] ∧
    parse_actions "CLICK at 89,17" = [PAct.click 89 17] := by
  decide

/-- C4 counterexample: on the three-line sample with auto-execute enabled and
screen 1920x1080, even when the random mode choice favours clicking, the code
executes only `EXECUTE_MAX_ACTIONS` (default 1) actions chosen by proximity to
the screen centre: the emitted device trace is a single click at (271,17), not
the three claimed clicks in text order. -/
theorem c4_end_to_end_counterexample :
    run_from_response 1920 1080 1 1 Mode.clickMode "t" none true true []
        c4text =
      some (true,
        [DeviceOp.moveTo 271 17, DeviceOp.clickBtn, DeviceOp.sleep 1]) ∧
    run_from_response 1920 1080 1 1 Mode.clickMode "t" none true true []
        c4text ≠ some (true, c4claimedOps 1) := by
  decide

/-- C4 amended: the sample parses to the three clicks in left-to-right order,
and with auto-execute enabled no confirmation is awaited; but execution (in
click mode) first sorts the clicks by Manhattan distance to the screen centre
(960,540) and truncates to `EXECUTE_MAX_ACTIONS`: with the default 1 only
(271,17) is clicked, and with the limit raised to 3 the order is
(271,17),(198,17),(89,17) — centre-proximity order, not text order — with the
configured delay after each executed click. -/
theorem c4_end_to_end_amended :
    parse_actions c4text =
      [PAct.click 89 17, PAct.click 198 17, PAct.click 271 17] ∧
    sortByScore 960 540 (parse_actions c4text) =
      [PAct.click 271 17, PAct.click 198 17, PAct.click 89 17] ∧
    run_from_response 1920 1080 1 1 Mode.clickMode "t" none true true []
        c4text =
      some (true,
        [DeviceOp.moveTo 271 17, DeviceOp.clickBtn, DeviceOp.sleep 1]) ∧
    run_from_response 1920 1080 3 1 Mode.clickMode "t" none true true []
        c4text =
      some (true,
        [DeviceOp.moveTo 271 17, DeviceOp.clickBtn, DeviceOp.sleep 1,
          DeviceOp.moveTo 198 17, DeviceOp.clickBtn, DeviceOp.sleep 1,
          DeviceOp.moveTo 89 17, DeviceOp.clickBtn, DeviceOp.sleep 1]) := by
  decide

/-- C5: the OCR filter keeps exactly the fragments with confidence strictly
above the configured threshold and non-empty stripped text: every such
fragment appears (with its box and confidence), every output element has
confidence above the threshold and non-empty text, and a fragment at or below
the threshold, or with whitespace-only text, contributes nothing. -/
theorem c5_ocr_threshold_filter (thr : Int) (frs : List OcrFrag) :
    (∀ f ∈ frs, thr < f.conf → stripStr f.text ≠ "" →
        mkTextElem f ∈ extract_text_with_ocr thr frs) ∧
    (∀ e ∈ extract_text_with_ocr thr frs, thr < e.confidence ∧ e.text ≠ "") ∧
    (∀ f ∈ frs, (f.conf ≤ thr ∨ stripStr f.text = "") →
        mkTextElem f ∉ extract_text_with_ocr thr frs) := by
  refine ⟨extract_complete thr frs, extract_sound thr frs, ?_⟩
  intro f _ hbad habs
  obtain ⟨hcf, hne⟩ := extract_sound thr frs _ habs
  rcases hbad with hb | hb
  · have : thr < f.conf := by simpa [mkTextElem] using hcf
    omega
  · exact hne (by simpa [mkTextElem] using hb)

/-- C5 witness: with the default threshold 30, a confident fragment is kept,
a fragment with confidence exactly 30 is dropped (strict comparison), and a
whitespace-only fragment is dropped. -/
theorem c5_ocr_threshold_filter_witness :
    mkTextElem ⟨" hi ", 85, 1, 2, 3, 4⟩ ∈ extract_text_with_ocr 30 fragsEx ∧
    mkTextElem ⟨"edge", 30, 0, 0, 1, 1⟩ ∉ extract_text_with_ocr 30 fragsEx ∧
    mkTextElem ⟨"  ", 90, 0, 0, 1, 1⟩ ∉ extract_text_with_ocr 30 fragsEx :=
  ⟨(c5_ocr_threshold_filter 30 fragsEx).1 _ (by decide) (by decide) (by decide),
    (c5_ocr_threshold_filter 30 fragsEx).2.2 _ (by decide) (Or.inl (by decide)),
    (c5_ocr_threshold_filter 30 fragsEx).2.2 _ (by decide) (Or.inr (by decide))⟩

/-- C6: a bounding box is emitted as a button iff `20 < w < 100` and
`10 < h < 50`, as a window iff `w > 100` and `h > 100`; the two classes are
mutually exclusive, and a box satisfying neither predicate appears in neither
list. -/
theorem c6_element_classification (rects : List Rect) (r : Rect) :
    (r ∈ (detect_ui_elements rects).1 ↔
      r ∈ rects ∧ (20 < r.w ∧ r.w < 100) ∧ (10 < r.h ∧ r.h < 50)) ∧
    (r ∈ (detect_ui_elements rects).2 ↔ r ∈ rects ∧ 100 < r.w ∧ 100 < r.h) ∧
    ¬(((20 < r.w ∧ r.w < 100) ∧ (10 < r.h ∧ r.h < 50)) ∧
        (100 < r.w ∧ 100 < r.h)) := by
  refine ⟨mem_detect_buttons rects r, mem_detect_windows rects r, ?_⟩
  rintro ⟨⟨⟨_, h1⟩, _⟩, h2, _⟩
  omega

/-- C6 witness: a 50x20 box is a button, a 200x300 box is a window. -/
theorem c6_element_classification_witness :
    (⟨0, 0, 50, 20⟩ : Rect) ∈
      (detect_ui_elements [⟨0, 0, 50, 20⟩, ⟨0, 0, 200, 300⟩]).1 ∧
    (⟨0, 0, 200, 300⟩ : Rect) ∈
      (detect_ui_elements [⟨0, 0, 50, 20⟩, ⟨0, 0, 200, 300⟩]).2 :=
  ⟨(c6_element_classification [⟨0, 0, 50, 20⟩, ⟨0, 0, 200, 300⟩]
      ⟨0, 0, 50, 20⟩).1.mpr ⟨by decide, by decide, by decide⟩,
    (c6_element_classification [⟨0, 0, 50, 20⟩, ⟨0, 0, 200, 300⟩]
      ⟨0, 0, 200, 300⟩).2.1.mpr ⟨by decide, by decide, by decide⟩⟩

/-- C7: parsing `TYPE "Hello, world!"` yields the single `Type` directive with
the quoted text verbatim — comma and internal whitespace preserved, quotes
excluded. -/
theorem c7_type_parse :
    parseActionsModule "TYPE \"Hello, world!\"" =
      [PAct.typeText "Hello, world!"] := by
  decide

/-- C8: when the OCR backend raises, `ocr_image` catches the exception and
returns the empty fragment list, `process_image` still assembles its result
(with zero texts), and the wrapped analyzer — a total function, so no
exception escapes it — still returns a report carrying that cv analysis,
whatever the original analyzer did (including raising itself). -/
theorem c8_ocr_failure_degrades (e : String) (cvAvail : Bool)
    (btnCall : Except String (List BtnBox)) (w h : Int) (p : String)
    (origCall : Except String BaseReport) :
    ocr_image true (Except.error e) = [] ∧
    (process_image true (Except.error e) cvAvail btnCall w h p).texts = [] ∧
    (analyze_screenshot origCall true
        (Except.ok (process_image true (Except.error e) cvAvail btnCall w h p))).cv_analysis
      = some (process_image true (Except.error e) cvAvail btnCall w h p) :=
  ⟨rfl, rfl, rfl⟩

/-- C8 witness: a concrete failing OCR call inside a cycle whose original
analyzer also failed. -/
theorem c8_ocr_failure_degrades_witness :
    ocr_image true (Except.error "tesseract crashed") = [] ∧
    (process_image true (Except.error "tesseract crashed") true
        (Except.error "cv2 crashed") 1920 1080 "shot.png").texts = [] ∧
    (analyze_screenshot (Except.error "original analyzer failed") true
        (Except.ok (process_image true (Except.error "tesseract crashed") true
          (Except.error "cv2 crashed") 1920 1080 "shot.png"))).cv_analysis
      = some (process_image true (Except.error "tesseract crashed") true
          (Except.error "cv2 crashed") 1920 1080 "shot.png") :=
  c8_ocr_failure_degrades "tesseract crashed" true (Except.error "cv2 crashed")
    1920 1080 "shot.png" (Except.error "original analyzer failed")

/-- C9 counterexample: in `"CLICK at 5,6 CLICK [7, 8]"` the bare-number click
(5,6) occurs before the bracketed click (7,8), yet the parser outputs the
bracketed match first — the output is not ordered by first match occurrence. -/
theorem c9_order_counterexample :
    parse_actions c9text = [PAct.click 7 8, PAct.click 5 6] ∧
    parse_actions c9text ≠ [PAct.click 5 6, PAct.click 7 8] := by
  decide

/-- C9 amended: the output of `parse_actions` is all bracket-pattern matches
in scan order, followed by exactly the non-duplicate bare-number matches in
scan order: the tail equals `dedupedAlt` of the bare-number scan, which is an
order-preserving subsequence of that scan, contains a click iff its
coordinates come from the scan and are not already captured, and contains no
duplicates.  Only within each pass does the order follow text position, so an
earlier bare-number click can follow a later bracketed one. -/
theorem c9_order_amended (text : String) :
    (parse_actions text =
      (scanAll bracketMatchAt (normalizeCR text.data)).map
          (fun p => PAct.click (p.1 : Int) (p.2 : Int)) ++
        dedupedAlt
          ((scanAll bracketMatchAt (normalizeCR text.data)).map
            (fun p => PAct.click (p.1 : Int) (p.2 : Int)))
          (scanAll altMatchAt (normalizeCR text.data))) ∧
    (∀ (acc : List PAct) (ps : List (Nat × Nat)),
      List.Sublist (dedupedAlt acc ps)
        (ps.map fun p => PAct.click (p.1 : Int) (p.2 : Int)) ∧
      (∀ x y : Int,
        PAct.click x y ∈ dedupedAlt acc ps ↔
          ((∃ p ∈ ps, (p.1 : Int) = x ∧ (p.2 : Int) = y) ∧
            acc.any (fun b => clickXYMatches b x y) = false)) ∧
      (dedupedAlt acc ps).Nodup) := by
  constructor
  · by_cases ht : text = ""
    · subst ht
      rfl
    · unfold parse_actions
      rw [if_neg ht]
      exact foldl_dedupStep_eq _ _
  · intro acc ps
    exact ⟨dedupedAlt_sublist ps acc, fun x y => mem_dedupedAlt ps acc x y,
      dedupedAlt_nodup ps acc⟩

/-- C9 amended witness: the decomposition at the counterexample text. -/
theorem c9_order_amended_witness :
    parse_actions c9text =
      (scanAll bracketMatchAt (normalizeCR c9text.data)).map
          (fun p => PAct.click (p.1 : Int) (p.2 : Int)) ++
        dedupedAlt
          ((scanAll bracketMatchAt (normalizeCR c9text.data)).map
            (fun p => PAct.click (p.1 : Int) (p.2 : Int)))
          (scanAll altMatchAt (normalizeCR c9text.data)) :=
  (c9_order_amended c9text).1

/-- C10 counterexample: a report whose `cv_analysis` is an empty dictionary —
it certainly lacks the `width` and `height` entries — does not disable clicks:
an empty dict is falsy in Python, the `or` chain discards it, no bounds check
runs, and the click reaches the device. -/
theorem c10_missing_dims_counterexample :
    execute_actions (some ⟨some ⟨none, none, false⟩, none⟩) 1
        [PAct.click 5 5] =
      [DeviceOp.moveTo 5 5, DeviceOp.clickBtn, DeviceOp.sleep 1] ∧
    execute_actions (some ⟨some ⟨none, none, false⟩, none⟩) 1
        [PAct.click 5 5] ≠ [] := by
  decide

/-- C10 amended: when the resolved cv dictionary is non-empty (truthy), lacks
`width` or `height`, and every dimension value that is present converts under
`int()`, the missing dimension defaults to 0, the in-bounds test fails for
every coordinate and the click is skipped with no device call.  (An entirely
empty `cv_analysis` dictionary, or a dimension value on which `int()` raises,
instead bypasses the bounds check — fail-open.) -/
theorem c10_missing_dims_amended (d : CvDict) (cv2 : Option CvDict)
    (delay : Rat) (x y : Int) (hne : d.isNonempty = true)
    (hmiss : d.width = none ∨ d.height = none)
    (hw : toIntOpt d.width ≠ none) (hh : toIntOpt d.height ≠ none) :
    execute_actions (some ⟨some d, cv2⟩) delay [PAct.click x y] = [] := by
  have hcv : resolveCvInfo (some ⟨some d, cv2⟩) = some d := by
    simp [resolveCvInfo, hne]
  have hsing : execute_actions (some ⟨some d, cv2⟩) delay [PAct.click x y] =
      clickOps (resolveCvInfo (some ⟨some d, cv2⟩)) delay x y := by
    simp [execute_actions]
  rw [hsing, hcv]
  cases hwd : toIntOpt d.width with
  | none => exact absurd hwd hw
  | some wv =>
    cases hhd : toIntOpt d.height with
    | none => exact absurd hhd hh
    | some hv =>
      have hzero : wv = 0 ∨ hv = 0 := by
        rcases hmiss with hm | hm
        · left
          rw [hm] at hwd
          simpa [toIntOpt] using hwd.symm
        · right
          rw [hm] at hhd
          simpa [toIntOpt] using hhd.symm
      simp only [clickOps, hwd, hhd]
      rw [if_neg]
      omega

/-- C10 amended witness: a non-empty cv dictionary with a missing `width` and
a well-formed `height` skips a click at (5,5). -/
theorem c10_missing_dims_amended_witness :
    execute_actions
        (some ⟨some ⟨none, some (CvVal.intVal 1080), false⟩, none⟩) (1 / 2)
        [PAct.click 5 5] = [] :=
  c10_missing_dims_amended ⟨none, some (CvVal.intVal 1080), false⟩ none (1 / 2)
    5 5 (by decide) (Or.inl rfl) (by decide) (by decide)

end ScreenAuto
